import Mathlib

/-!
Verification of the GTD tooling core (gtd_commands.py, gtd_health_alerts.py,
heuristic_asides.py) against its specification.

The Python code is shallowly embedded: strings are modelled as List Char,
file timestamps as Int seconds since the epoch, the workspace (projects,
task record files, stash entries, the .active pointer file) as an explicit
state record, and the external git collaborators as boolean outcome inputs.
The regular expressions used by the source are embedded as executable
matching functions with the same semantics on the ASCII inputs the tool
manipulates (re.IGNORECASE is modelled by ASCII lowercasing, the \d, \w and
whitespace classes by their ASCII ranges).
-/

namespace GtdSpec

/-! ## Character and list-of-char utilities -/

/-- ASCII digit test, embedding the regex class \d and the glob class [0-9]. -/
def isDigitC (c : Char) : Bool := decide (48 ≤ c.toNat ∧ c.toNat ≤ 57)

/-- Whitespace as stripped by Python str.strip(). -/
def pyIsSpace (c : Char) : Bool :=
  decide (c.toNat = 32 ∨ c.toNat = 9 ∨ c.toNat = 10 ∨ c.toNat = 13 ∨ c.toNat = 11 ∨ c.toNat = 12)

/-- ASCII lowercasing, embedding Python str.lower() on the ASCII range. -/
def lowerChar (c : Char) : Char :=
  if 65 ≤ c.toNat ∧ c.toNat ≤ 90 then Char.ofNat (c.toNat + 32) else c

/-- Word character, embedding the regex class \w (ASCII). -/
def isWordChar (c : Char) : Bool :=
  decide ((65 ≤ c.toNat ∧ c.toNat ≤ 90) ∨ (97 ≤ c.toNat ∧ c.toNat ≤ 122) ∨
    (48 ≤ c.toNat ∧ c.toNat ≤ 57) ∨ c.toNat = 95)

/-- Decimal digit to its character. -/
def digitChar : Nat → Char
  | 0 => '0' | 1 => '1' | 2 => '2' | 3 => '3' | 4 => '4'
  | 5 => '5' | 6 => '6' | 7 => '7' | 8 => '8' | 9 => '9'
  | _ => '0'

/-- Parse a digit string as a decimal number, embedding Python int() on the
digit strings the allocator extracts. -/
def charsToNat (cs : List Char) : Nat :=
  cs.foldl (fun a c => a * 10 + (c.toNat - 48)) 0

/-- Decimal digits of a positive number, least significant first; the first
argument is fuel (always called with fuel at least the number). -/
def natDigitsRevAux : Nat → Nat → List Char
  | _, 0 => []
  | 0, _ + 1 => []
  | fuel + 1, n + 1 => digitChar ((n + 1) % 10) :: natDigitsRevAux fuel ((n + 1) / 10)

/-- Decimal rendering of a Nat, embedding Python str(n) for n ≥ 0. -/
def natToChars (n : Nat) : List Char :=
  if n = 0 then ['0'] else (natDigitsRevAux n n).reverse

/-- Zero-pad to width 3, embedding the Python format {:03d} on non-negative
numbers. -/
def pad3chars (n : Nat) : List Char :=
  List.replicate (3 - (natToChars n).length) '0' ++ natToChars n

/-- Boolean list-prefix test. -/
def isPrefixList : List Char → List Char → Bool
  | [], _ => true
  | _ :: _, [] => false
  | a :: as, b :: bs => a == b && isPrefixList as bs

/-- Does pat occur as a contiguous substring? (Scanning every start
position; pat is nonempty at every use site.) -/
def occursIn (pat : List Char) : List Char → Bool
  | [] => false
  | c :: cs => isPrefixList pat (c :: cs) || occursIn pat cs

/-- Replace every non-overlapping occurrence of pat (leftmost first), with
fuel for structural termination; embeds re.sub with a literal pattern.
Always called with fuel = length of the text. -/
def replaceAllFuel (pat rep : List Char) : Nat → List Char → List Char
  | _, [] => []
  | 0, cs => cs
  | fuel + 1, c :: cs =>
    if !pat.isEmpty && isPrefixList pat (c :: cs) then
      rep ++ replaceAllFuel pat rep fuel ((c :: cs).drop pat.length)
    else
      c :: replaceAllFuel pat rep fuel cs

/-- re.sub(pat, rep, text) for a literal (regex-metacharacter-free) pat. -/
def replaceAll (pat rep cs : List Char) : List Char :=
  replaceAllFuel pat rep cs.length cs

/-- Count non-overlapping occurrences (same scan as replaceAllFuel). -/
def countOccFuel (pat : List Char) : Nat → List Char → Nat
  | _, [] => 0
  | 0, _ => 0
  | fuel + 1, c :: cs =>
    if !pat.isEmpty && isPrefixList pat (c :: cs) then
      1 + countOccFuel pat fuel ((c :: cs).drop pat.length)
    else
      countOccFuel pat fuel cs

def countOcc (pat cs : List Char) : Nat := countOccFuel pat cs.length cs

/-- Python str.split(sep) on lists of characters (fuel = text length). -/
def splitOnListAux (sep : List Char) : Nat → List Char → List Char → List (List Char)
  | _, [], acc => [acc.reverse]
  | 0, cs, acc => [acc.reverse ++ cs]
  | fuel + 1, c :: cs, acc =>
    if !sep.isEmpty && isPrefixList sep (c :: cs) then
      acc.reverse :: splitOnListAux sep fuel ((c :: cs).drop sep.length) []
    else
      splitOnListAux sep fuel cs (c :: acc)

def splitOnList (sep cs : List Char) : List (List Char) :=
  splitOnListAux sep cs.length cs []

/-- Python str.strip(). -/
def trimL (cs : List Char) : List Char :=
  ((cs.dropWhile pyIsSpace).reverse.dropWhile pyIsSpace).reverse

/-- Does the name end with the literal ".md"? -/
def endsWithMd (cs : List Char) : Bool :=
  match cs.reverse with
  | 'd' :: 'm' :: '.' :: _ => true
  | _ => false

def dotMd : List Char := ['.', 'm', 'd']

/-! ## Identifier allocator (get_next_id in gtd_commands.py)

The record store is modelled as the list of entry names (file and folder
names) that PROJECTS_DIR.rglob would visit. -/

def kLit : List Char := ['K']

/-- Glob pattern K[0-9]*.md applied to a name. -/
def globK : List Char → Bool
  | 'K' :: c :: rest => isDigitC c && endsWithMd rest
  | _ => false

/-- Glob pattern P[0-9]* applied to a name. -/
def globP : List Char → Bool
  | 'P' :: c :: _ => isDigitC c
  | _ => false

/-- re.search(K(\d+), name): value of the digit run after the first K that
is followed by at least one digit. -/
def findKVal : List Char → Option Nat
  | [] => none
  | 'K' :: rest =>
    match rest with
    | c :: _ => if isDigitC c then some (charsToNat (rest.takeWhile isDigitC)) else findKVal rest
    | [] => none
  | _ :: rest => findKVal rest

/-- re.search(P(\d+), name). -/
def findPVal : List Char → Option Nat
  | [] => none
  | 'P' :: rest =>
    match rest with
    | c :: _ => if isDigitC c then some (charsToNat (rest.takeWhile isDigitC)) else findPVal rest
    | [] => none
  | _ :: rest => findPVal rest

/-- The numeric ids the task branch of get_next_id collects. -/
def kIds (names : List (List Char)) : List Nat :=
  names.filterMap (fun n => if globK n then findKVal n else none)

/-- The numeric ids the project branch of get_next_id collects. -/
def pIds (names : List (List Char)) : List Nat :=
  names.filterMap (fun n => if globP n then findPVal n else none)

/-- max(ids) + 1 if ids else 1. -/
def nextFrom (ids : List Nat) : Nat :=
  match ids with
  | [] => 1
  | _ :: _ => ids.foldr Nat.max 0 + 1

/-- get_next_id(prefix): the task branch is taken exactly when the prefix
is "K"; every other prefix (including "P") scans the project pattern. -/
def getNextId (prefixStr : List Char) (names : List (List Char)) : List Char :=
  let ids := if prefixStr = kLit then kIds names else pIds names
  prefixStr ++ pad3chars (nextFrom ids)

/-- The maximum collected task id (0 when there are none). -/
def kMaxVal (names : List (List Char)) : Nat := (kIds names).foldr Nat.max 0

/-- Task record file name {task_id}-{slug}.md. -/
def mkTaskRecordName (tid slug : List Char) : List Char :=
  tid ++ '-' :: slug ++ dotMd

/-! ## Lemmas about the numeric rendering and parsing -/

theorem digitChar_toNat (k : Nat) (h : k < 10) : (digitChar k).toNat = 48 + k := by
  interval_cases k <;> rfl

theorem digitChar_isDigit (k : Nat) (h : k < 10) : isDigitC (digitChar k) = true := by
  interval_cases k <;> rfl

theorem charsToNat_append_singleton (xs : List Char) (c : Char) :
    charsToNat (xs ++ [c]) = 10 * charsToNat xs + (c.toNat - 48) := by
  simp [charsToNat, List.foldl_append, Nat.mul_comm]

theorem natDigitsRevAux_val : ∀ fuel n, n ≤ fuel →
    charsToNat (natDigitsRevAux fuel n).reverse = n := by
  intro fuel
  induction fuel with
  | zero =>
    intro n hn
    interval_cases n
    rfl
  | succ f ih =>
    intro n hn
    match n with
    | 0 => rfl
    | m + 1 =>
      have hdiv : (m + 1) / 10 ≤ f := by
        have := Nat.div_lt_self (Nat.succ_pos m) (by omega : 1 < 10)
        omega
      have hmod : (m + 1) % 10 < 10 := Nat.mod_lt _ (by omega)
      calc charsToNat (natDigitsRevAux (f + 1) (m + 1)).reverse
          = charsToNat ((natDigitsRevAux f ((m + 1) / 10)).reverse
              ++ [digitChar ((m + 1) % 10)]) := by
            simp [natDigitsRevAux]
        _ = 10 * charsToNat (natDigitsRevAux f ((m + 1) / 10)).reverse
              + ((digitChar ((m + 1) % 10)).toNat - 48) := by
            rw [charsToNat_append_singleton]
        _ = 10 * ((m + 1) / 10) + (m + 1) % 10 := by
            rw [ih _ hdiv, digitChar_toNat _ hmod]
            omega
        _ = m + 1 := Nat.div_add_mod (m + 1) 10

theorem charsToNat_natToChars (n : Nat) : charsToNat (natToChars n) = n := by
  by_cases h : n = 0
  · subst h; rfl
  · simp only [natToChars, if_neg h]
    exact natDigitsRevAux_val n n (Nat.le_refl n)

theorem charsToNat_zeros_append (k : Nat) (xs : List Char) :
    charsToNat (List.replicate k '0' ++ xs) = charsToNat xs := by
  induction k with
  | zero => rfl
  | succ m ih =>
    simpa [charsToNat, List.replicate_succ] using ih

theorem charsToNat_pad3 (n : Nat) : charsToNat (pad3chars n) = n := by
  rw [pad3chars, charsToNat_zeros_append, charsToNat_natToChars]

theorem natDigitsRevAux_all_digits : ∀ fuel n,
    (natDigitsRevAux fuel n).all isDigitC = true := by
  intro fuel
  induction fuel with
  | zero => intro n; cases n <;> rfl
  | succ f ih =>
    intro n
    match n with
    | 0 => rfl
    | m + 1 =>
      have hmod : (m + 1) % 10 < 10 := Nat.mod_lt _ (by omega)
      simp [natDigitsRevAux, List.all_cons, digitChar_isDigit _ hmod, ih]

theorem natToChars_all_digits (n : Nat) : (natToChars n).all isDigitC = true := by
  by_cases h : n = 0
  · subst h; rfl
  · simp only [natToChars, if_neg h]
    have := natDigitsRevAux_all_digits n n
    simp only [List.all_eq_true] at *
    intro c hc
    exact this c (List.mem_reverse.mp hc)

theorem pad3chars_all_digits (n : Nat) : (pad3chars n).all isDigitC = true := by
  simp only [pad3chars, List.all_append, Bool.and_eq_true]
  refine ⟨?_, natToChars_all_digits n⟩
  simp only [List.all_eq_true]
  intro c hc
  have := List.eq_of_mem_replicate hc
  subst this
  rfl

theorem natToChars_ne_nil (n : Nat) : natToChars n ≠ [] := by
  by_cases h : n = 0
  · subst h; simp [natToChars]
  · simp only [natToChars, if_neg h]
    match m : n with
    | 0 => omega
    | k + 1 =>
      simp [natDigitsRevAux]

theorem pad3chars_ne_nil (n : Nat) : pad3chars n ≠ [] := by
  simp only [pad3chars]
  intro h
  rcases List.append_eq_nil.mp h with ⟨_, h2⟩
  exact natToChars_ne_nil n h2

/-- The padded id splits as a digit head and a digit tail. -/
theorem pad3chars_cons (n : Nat) : ∃ c cs, pad3chars n = c :: cs ∧
    isDigitC c = true ∧ cs.all isDigitC = true := by
  cases h : pad3chars n with
  | nil => exact absurd h (pad3chars_ne_nil n)
  | cons c cs =>
    have hall := pad3chars_all_digits n
    rw [h] at hall
    simp only [List.all_cons, Bool.and_eq_true] at hall
    exact ⟨c, cs, rfl, hall.1, hall.2⟩

theorem takeWhile_all_append (p : Char → Bool) (xs : List Char) (y : Char)
    (rest : List Char) (hall : xs.all p = true) (hy : p y = false) :
    (xs ++ y :: rest).takeWhile p = xs := by
  induction xs with
  | nil => simp [List.takeWhile_cons, hy]
  | cons a as ih =>
    simp only [List.all_cons, Bool.and_eq_true] at hall
    simp [List.takeWhile_cons, hall.1, ih hall.2]

theorem endsWithMd_append (xs : List Char) : endsWithMd (xs ++ dotMd) = true := by
  simp [endsWithMd, dotMd, List.reverse_append]

/-! ## Claim C1 -/

theorem kIds_cons_pos (n : List Char) (names : List (List Char)) (v : Nat)
    (hg : globK n = true) (hv : findKVal n = some v) :
    kIds (n :: names) = v :: kIds names := by
  simp [kIds, List.filterMap_cons, hg, hv]

theorem nextFrom_eq (l : List Nat) : nextFrom l = l.foldr Nat.max 0 + 1 := by
  cases l <;> rfl

/-- The fresh task record name matches the allocator glob and parses back to
the freshly allocated number. -/
theorem fresh_name_parses (m : Nat) (slug : List Char) :
    globK ('K' :: pad3chars (m + 1) ++ '-' :: slug ++ dotMd) = true ∧
    findKVal ('K' :: pad3chars (m + 1) ++ '-' :: slug ++ dotMd) = some (m + 1) := by
  obtain ⟨c, cs, hpad, hc, hcs⟩ := pad3chars_cons (m + 1)
  have hdash : isDigitC '-' = false := rfl
  have hTake : ((c :: cs) ++ '-' :: (slug ++ dotMd)).takeWhile isDigitC = c :: cs := by
    apply takeWhile_all_append
    · simp [List.all_cons, hc, hcs]
    · exact hdash
  constructor
  · rw [hpad]
    show globK ('K' :: c :: (cs ++ '-' :: slug ++ dotMd)) = true
    simp only [globK, hc, Bool.true_and]
    have : cs ++ '-' :: slug ++ dotMd = (cs ++ '-' :: slug) ++ dotMd := by
      simp [List.append_assoc]
    rw [this]
    exact endsWithMd_append _
  · rw [hpad]
    show findKVal ('K' :: (c :: (cs ++ '-' :: slug ++ dotMd))) = some (m + 1)
    simp only [findKVal, hc, if_pos]
    have harg : c :: (cs ++ '-' :: slug ++ dotMd) = (c :: cs) ++ '-' :: (slug ++ dotMd) := by
      simp [List.append_assoc]
    rw [harg, hTake, ← hpad, charsToNat_pad3]

/-- Claim C1: get_next_id scans the record set for names matching the task
pattern, takes the maximum extracted numeric value (0 when there are no
matches) and returns the prefix with max+1 zero-padded to width 3; it is a
pure function of the record set, and after a task record named with the
returned id is added to the set, the next allocation returns the successor
id. -/
theorem C1_next_id_allocation (names : List (List Char)) (slug : List Char) :
    getNextId kLit names = kLit ++ pad3chars (kMaxVal names + 1) ∧
    getNextId kLit (mkTaskRecordName (getNextId kLit names) slug :: names) =
      kLit ++ pad3chars (kMaxVal names + 2) := by
  have h0 : getNextId kLit names = kLit ++ pad3chars (nextFrom (kIds names)) := rfl
  have h1 : getNextId kLit names = kLit ++ pad3chars (kMaxVal names + 1) := by
    rw [h0, nextFrom_eq]
    rfl
  refine ⟨h1, ?_⟩
  have hname : mkTaskRecordName (getNextId kLit names) slug =
      'K' :: pad3chars (kMaxVal names + 1) ++ '-' :: slug ++ dotMd := by
    rw [h1]
    simp [mkTaskRecordName, kLit, List.append_assoc]
  obtain ⟨hg, hv⟩ := fresh_name_parses (kMaxVal names) slug
  rw [hname]
  have hids := kIds_cons_pos _ names (kMaxVal names + 1) hg hv
  have h2 : getNextId kLit (('K' :: pad3chars (kMaxVal names + 1) ++ '-' :: slug ++ dotMd) :: names)
      = kLit ++ pad3chars (nextFrom (kIds
          (('K' :: pad3chars (kMaxVal names + 1) ++ '-' :: slug ++ dotMd) :: names))) := rfl
  rw [h2, hids, nextFrom_eq, List.foldr_cons]
  have hmax : Nat.max (kMaxVal names + 1) ((kIds names).foldr Nat.max 0) = kMaxVal names + 1 := by
    have hfold : (kIds names).foldr Nat.max 0 = kMaxVal names := rfl
    rw [hfold]
    exact Nat.max_eq_left (Nat.le_succ _)
  rw [hmax]

/-! ## Workspace state model

A task record file, a project folder (its name, optional README.md index
document, and task record files under tasks/), a stash entry file under the
reserved P000-STASH namespace, and the whole workspace: the .active pointer
file (none when the file does not exist), the project folders, and the
stash entries (the P000-STASH folder itself is assumed present). -/

structure TaskRecFile where
  name : List Char
  content : List Char
deriving DecidableEq

structure Project where
  folder : List Char
  readme : Option (List Char)
  tasks : List TaskRecFile
deriving DecidableEq

structure StashEntry where
  name : List Char
  content : List Char
deriving DecidableEq

structure GtdState where
  activeFile : Option (List Char)
  projects : List Project
  stash : List StashEntry
deriving DecidableEq

/-- get_active_project(): the stripped content of the .active file; the
empty result is folded into none, matching the falsiness test every caller
performs on the returned string. -/
def getActiveProject (st : GtdState) : Option (List Char) :=
  match st.activeFile with
  | none => none
  | some c => if trimL c = [] then none else some (trimL c)

/-- PROJECTS_DIR.glob(f"{project_id}-*")[0]: the first project folder whose
name starts with the id followed by a dash. -/
def findProject (ps : List Project) (pid : List Char) : Option Project :=
  ps.find? (fun p => isPrefixList (pid ++ ['-']) p.folder)

/-- Rewrite the first project folder matching the glob, leaving the rest
unchanged. -/
def updateProject : List Project → List Char → (Project → Project) → List Project
  | [], _, _ => []
  | p :: rest, pid, f =>
    if isPrefixList (pid ++ ['-']) p.folder then f p :: rest
    else p :: updateProject rest pid f

def stashDirName : List Char := "P000-STASH".data

/-- The entry names PROJECTS_DIR.rglob visits: project folder names, task
record file names, the stash folder and its entry files. -/
def allNames (st : GtdState) : List (List Char) :=
  st.projects.flatMap (fun p => p.folder :: p.tasks.map (fun t => t.name)) ++
    stashDirName :: st.stash.map (fun e => e.name)

/-! ## Record store: create_task -/

/-- External collaborator outcomes for one create_task run: the direct
subprocess git add and git commit calls (check=True, so a failure raises),
the gtd_git_helper.sh commit (its failure is caught and only warned about),
and the current date used for the created field. -/
structure GitEnv where
  addOk : Bool
  commitOk : Bool
  helperCommitOk : Bool
  today : List Char
deriving DecidableEq

inductive GtdError where
  | usage
  | invalidProjectId
  | projectNotFound
  | noActiveProject
deriving DecidableEq

inductive CmdResult where
  | ok
  | err (e : GtdError)
deriving DecidableEq

/-- Result of create_task: the returned task id, None after a printed
error message, or an uncaught subprocess.CalledProcessError. -/
inductive CreateResult where
  | ok (taskId : List Char)
  | printedNone (e : GtdError)
  | raised
deriving DecidableEq

inductive HelperResult where
  | success
  | warnedFailure
deriving DecidableEq

/-- call_git_helper: the subprocess call is wrapped in try/except
CalledProcessError, so a failing helper yields a printed warning and a
False return value, never an exception. -/
def callGitHelper (outcome : Bool) : HelperResult :=
  if outcome then HelperResult.success else HelperResult.warnedFailure

/-- title.lower().replace(" ", "-")[:50] (ASCII lowering). -/
def mkSlug (title : List Char) : List Char :=
  ((title.map lowerChar).map (fun c => if c = ' ' then '-' else c)).take 50

def aposC : Char := Char.ofNat 39

/-- Python str(["next"]) as rendered into the tags field. -/
def tagsDefaultLit : List Char := '[' :: aposC :: ("next".data ++ aposC :: [']'])

def defaultStatus : List Char := "next".data

/-- TASK_TEMPLATE.format(...) with the kwargs defaults of create_task
inlined: energy medium, empty due, context computer, tags str(["next"]),
empty notes. -/
def renderTask (tid pid title status projName today : List Char) : List Char :=
  "---\nid: ".data ++ tid ++
  "\nproject: ".data ++ pid ++
  "\ntitle: ".data ++ title ++
  "\nstatus: ".data ++ status ++
  "\nenergy: medium\ndue: \ncontext: computer\ntags: ".data ++ tagsDefaultLit ++
  "\ncreated: ".data ++ today ++
  "\n---\n\n# ".data ++ title ++
  "\n\n↑ Part of [[../README|P".data ++ pid ++ (' ' :: projName) ++
  "]]\n\n## Context\ncomputer\n\n## Next Action\n- [ ] [Specific next step] #next\n\n## Definition of Done\n- [ ] [Criteria 1]\n- [ ] [Criteria 2]\n\n## Notes\n\n".data

def tasksHeadingLit : List Char := "## Tasks\n".data

/-- The task reference line appended under the Tasks heading. -/
def refLine (tid title : List Char) : List Char :=
  "- [ ] [[tasks/".data ++ tid ++ '|' :: (tid ++ "]]: ".data ++ title ++ " #next\n".data)

/-- The README update in create_task: if a Tasks heading is found, re.sub
rewrites every occurrence of the heading to the heading followed by the new
reference line; otherwise the document is left alone. -/
def insertTaskRef (tid title : List Char) (doc : List Char) : List Char :=
  if occursIn tasksHeadingLit doc then
    replaceAll tasksHeadingLit (tasksHeadingLit ++ refLine tid title) doc
  else doc

/-- project_folder.name.split(f"{project_id}-")[1]: the folder name part
after the first occurrence of the id-dash separator. -/
def projNameOf (pid folder : List Char) : List Char :=
  (((splitOnList (pid ++ ['-']) folder).drop 1).head?).getD []

/-- create_task(title, project_id, status): resolves the project (explicit
argument, else the active pointer), writes the rendered record file, runs
git add and git commit with check=True (a failure raises after the record
write), inserts the README task reference, then invokes the git helper
commit whose outcome is discarded. -/
def createTask (env : GitEnv) (title : List Char) (projectIdArg : Option (List Char))
    (st : GtdState) (status : List Char) : CreateResult × GtdState :=
  let pid? := match projectIdArg with
    | some p => some p
    | none => getActiveProject st
  match pid? with
  | none => (CreateResult.printedNone GtdError.noActiveProject, st)
  | some pid =>
    match findProject st.projects pid with
    | none => (CreateResult.printedNone GtdError.projectNotFound, st)
    | some proj =>
      let projName := projNameOf pid proj.folder
      let taskId := getNextId kLit (allNames st)
      let fname := mkTaskRecordName taskId (mkSlug title)
      let content := renderTask taskId pid title status projName env.today
      let st1 : GtdState := ⟨st.activeFile,
        updateProject st.projects pid
          (fun p => ⟨p.folder, p.readme, ⟨fname, content⟩ :: p.tasks⟩),
        st.stash⟩
      if !env.addOk then (CreateResult.raised, st1)
      else if !env.commitOk then (CreateResult.raised, st1)
      else
        let st2 : GtdState := ⟨st1.activeFile,
          updateProject st1.projects pid
            (fun p => ⟨p.folder, p.readme.map (insertTaskRef taskId title), p.tasks⟩),
          st1.stash⟩
        let _helper := callGitHelper env.helperCommitOk
        (CreateResult.ok taskId, st2)

/-- The README of a project, if the project exists. -/
def readmeOf (st : GtdState) (pid : List Char) : Option (List Char) :=
  match findProject st.projects pid with
  | some p => p.readme
  | none => none

/-- The stored content of a task record file of a project. -/
def taskContent (st : GtdState) (pid name : List Char) : Option (List Char) :=
  match findProject st.projects pid with
  | none => none
  | some p =>
    match p.tasks.find? (fun t => t.name == name) with
    | some t => some t.content
    | none => none

/-! ## Project state store: cmd_stash and cmd_switch -/

def stashedMarker : List Char := "stashed: ".data

def falseWord : List Char := "false".data

def trueWord : List Char := "true".data

def stFalseLit : List Char := stashedMarker ++ falseWord

def stTrueLit : List Char := stashedMarker ++ trueWord

/-- re.match(^P\d+$, arg). -/
def validPid : List Char → Bool
  | c :: d :: ds => c == 'P' && (d :: ds).all isDigitC
  | _ => false

def stashEntryContent (folder pid : List Char) : List Char :=
  "↑ Project: [[".data ++ folder ++ "/README|".data ++ pid ++ "]]\n\n".data

/-- stash_file.write_text: overwrite the entry if present, else add it. -/
def upsertStash : List StashEntry → List Char → List Char → List StashEntry
  | [], name, content => [⟨name, content⟩]
  | e :: rest, name, content =>
    if e.name = name then ⟨name, content⟩ :: rest
    else e :: upsertStash rest name content

/-- cmd_stash: requires an active project; rewrites stashed: false to
stashed: true in the README, writes the stash entry, and clears the active
file (writing the empty string). -/
def cmdStash (st : GtdState) : CmdResult × GtdState :=
  match getActiveProject st with
  | none => (CmdResult.err GtdError.noActiveProject, st)
  | some pid =>
    match findProject st.projects pid with
    | none => (CmdResult.err GtdError.projectNotFound, st)
    | some proj =>
      let projects1 := updateProject st.projects pid
        (fun p => ⟨p.folder, p.readme.map (replaceAll stFalseLit stTrueLit), p.tasks⟩)
      let stash1 := upsertStash st.stash (pid ++ dotMd) (stashEntryContent proj.folder pid)
      (CmdResult.ok, ⟨some [], projects1, stash1⟩)

/-- cmd_switch: validates the id, requires the project folder to exist,
rewrites stashed: true to stashed: false in the README, and sets the active
file to the id. -/
def cmdSwitch (args : List (List Char)) (st : GtdState) : CmdResult × GtdState :=
  match args with
  | [] => (CmdResult.err GtdError.usage, st)
  | pid :: _ =>
    if validPid pid then
      match findProject st.projects pid with
      | none => (CmdResult.err GtdError.projectNotFound, st)
      | some _ =>
        (CmdResult.ok,
          ⟨some pid,
           updateProject st.projects pid
             (fun p => ⟨p.folder, p.readme.map (replaceAll stTrueLit stFalseLit), p.tasks⟩),
           st.stash⟩)
    else (CmdResult.err GtdError.invalidProjectId, st)

/-! ## Lemmas about substring replacement -/

theorem isPrefixList_append_self (l t : List Char) : isPrefixList l (l ++ t) = true := by
  induction l with
  | nil => rfl
  | cons a as ih => simp [isPrefixList, ih]

theorem occursIn_middle (pat pre post : List Char) (h : pat ≠ []) :
    occursIn pat (pre ++ pat ++ post) = true := by
  induction pre with
  | nil =>
    cases pat with
    | nil => exact absurd rfl h
    | cons a as =>
      have h1 : isPrefixList (a :: as) ((a :: as) ++ post) = true := isPrefixList_append_self _ _
      rw [List.cons_append] at h1
      simp [occursIn, h1]
  | cons b bs ih =>
    simp only [List.cons_append, occursIn, Bool.or_eq_true]
    right
    simpa [List.append_assoc] using ih

theorem replaceAllFuel_no_occur (pat rep : List Char) :
    ∀ fuel cs, cs.length ≤ fuel → occursIn pat cs = false →
      replaceAllFuel pat rep fuel cs = cs := by
  intro fuel
  induction fuel with
  | zero =>
    intro cs hlen _
    have hnil : cs = [] := List.length_eq_zero.mp (Nat.le_zero.mp hlen)
    subst hnil
    rfl
  | succ f ih =>
    intro cs hlen hocc
    cases cs with
    | nil => rfl
    | cons c cs' =>
      simp only [occursIn, Bool.or_eq_false_iff] at hocc
      have hlen' : cs'.length ≤ f := by
        simpa using Nat.le_of_succ_le_succ hlen
      simp [replaceAllFuel, hocc.1, ih cs' hlen' hocc.2]

theorem replaceAllFuel_unique (pat rep : List Char) (hne : pat ≠ []) :
    ∀ fuel pre post, (pre ++ pat ++ post).length ≤ fuel →
      (∀ n, n < pre.length → isPrefixList pat ((pre ++ pat ++ post).drop n) = false) →
      occursIn pat post = false →
      replaceAllFuel pat rep fuel (pre ++ pat ++ post) = pre ++ rep ++ post := by
  intro fuel
  induction fuel with
  | zero =>
    intro pre post hlen _ _
    exfalso
    have hp : 0 < pat.length := List.length_pos.mpr hne
    simp only [List.append_assoc, List.length_append] at hlen
    omega
  | succ f ih =>
    intro pre post hlen hpre hpost
    cases pre with
    | nil =>
      cases pat with
      | nil => exact absurd rfl hne
      | cons a as =>
        have hpl : isPrefixList (a :: as) (a :: (as ++ post)) = true := by
          have := isPrefixList_append_self (a :: as) post
          rwa [List.cons_append] at this
        have hlp : post.length ≤ f := by
          simp only [List.nil_append, List.length_append, List.length_cons] at hlen
          omega
        have hdrop : List.drop (a :: as).length (a :: (as ++ post)) = post := by
          have := List.drop_left (a :: as) post
          rwa [List.cons_append] at this
        show replaceAllFuel (a :: as) rep (f + 1) (a :: (as ++ post)) = rep ++ post
        rw [replaceAllFuel, if_pos (by simp [hpl]), hdrop,
          replaceAllFuel_no_occur _ _ f post hlp hpost]
    | cons b pre' =>
      have h0 : isPrefixList pat (b :: (pre' ++ pat ++ post)) = false := by
        have := hpre 0 (by simp)
        simpa using this
      have hlen' : (pre' ++ pat ++ post).length ≤ f := by
        simp only [List.cons_append, List.length_cons] at hlen
        omega
      have hpre' : ∀ n, n < pre'.length →
          isPrefixList pat (List.drop n (pre' ++ pat ++ post)) = false := by
        intro n hn
        have h2 := hpre (n + 1) (by simp only [List.length_cons]; omega)
        have h3 : List.drop (n + 1) ((b :: pre') ++ pat ++ post)
            = List.drop n (pre' ++ pat ++ post) := by
          rw [List.cons_append, List.cons_append, List.drop_succ_cons]
        rwa [h3] at h2
      have hcond : (!pat.isEmpty && isPrefixList pat (b :: (pre' ++ pat ++ post))) = false := by
        rw [h0, Bool.and_false]
      have hcond' : ¬((!pat.isEmpty && isPrefixList pat (b :: (pre' ++ pat ++ post))) = true) := by
        rw [hcond]
        exact Bool.false_ne_true
      show replaceAllFuel pat rep (f + 1) (b :: (pre' ++ pat ++ post))
        = b :: (pre' ++ rep ++ post)
      rw [replaceAllFuel, if_neg hcond']
      rw [ih pre' post hlen' hpre' hpost]

theorem replaceAll_no_occur (pat rep cs : List Char) (h : occursIn pat cs = false) :
    replaceAll pat rep cs = cs :=
  replaceAllFuel_no_occur pat rep cs.length cs (Nat.le_refl _) h

theorem replaceAll_unique (pat rep pre post : List Char) (hne : pat ≠ [])
    (hpre : ∀ n, n < pre.length → isPrefixList pat ((pre ++ pat ++ post).drop n) = false)
    (hpost : occursIn pat post = false) :
    replaceAll pat rep (pre ++ pat ++ post) = pre ++ rep ++ post :=
  replaceAllFuel_unique pat rep hne (pre ++ pat ++ post).length pre post
    (Nat.le_refl _) hpre hpost

/-! ## Lemmas about the workspace state -/

theorem findProject_updateProject (ps : List Project) (pid : List Char)
    (f : Project → Project) (hf : ∀ p, (f p).folder = p.folder) :
    findProject (updateProject ps pid f) pid = (findProject ps pid).map f := by
  induction ps with
  | nil => rfl
  | cons p rest ih =>
    simp only [updateProject]
    by_cases hc : isPrefixList (pid ++ ['-']) p.folder = true
    · rw [if_pos hc]
      simp [findProject, List.find?, hf p, hc]
    · have hc' : isPrefixList (pid ++ ['-']) p.folder = false := by
        simpa using hc
      rw [if_neg (by simp [hc'])]
      simp only [findProject, List.find?, hc']
      exact ih

theorem dropWhile_eq_self_of_all (p : Char → Bool) (cs : List Char)
    (h : cs.all (fun c => !(p c)) = true) : cs.dropWhile p = cs := by
  cases cs with
  | nil => rfl
  | cons c cs' =>
    simp only [List.all_cons, Bool.and_eq_true, Bool.not_eq_true'] at h
    simp [List.dropWhile_cons, h.1]

theorem trimL_eq_self (cs : List Char)
    (h : cs.all (fun c => !(pyIsSpace c)) = true) : trimL cs = cs := by
  have h2 : cs.reverse.all (fun c => !(pyIsSpace c)) = true := by
    simp only [List.all_eq_true] at h ⊢
    intro c hc
    exact h c (List.mem_reverse.mp hc)
  unfold trimL
  rw [dropWhile_eq_self_of_all _ _ h, dropWhile_eq_self_of_all _ _ h2,
    List.reverse_reverse]

theorem isDigitC_not_space (c : Char) (h : isDigitC c = true) : pyIsSpace c = false := by
  simp only [isDigitC, decide_eq_true_eq] at h
  simp only [pyIsSpace, decide_eq_false_iff_not]
  omega

theorem validPid_chars (p : List Char) (h : validPid p = true) :
    p.all (fun c => !(pyIsSpace c)) = true ∧ p ≠ [] := by
  cases p with
  | nil => exact absurd h Bool.false_ne_true
  | cons c cs =>
    cases cs with
    | nil => exact absurd h Bool.false_ne_true
    | cons d ds =>
      simp only [validPid, Bool.and_eq_true, beq_iff_eq] at h
      obtain ⟨hcP, hall⟩ := h
      subst hcP
      refine ⟨?_, by simp⟩
      simp only [List.all_eq_true] at hall ⊢
      intro x hx
      rcases List.mem_cons.mp hx with h1 | h2
      · subst h1; rfl
      · have hd := hall x h2
        simp [Bool.not_eq_true', isDigitC_not_space x hd]

theorem getActive_some (p : List Char) (ps : List Project) (es : List StashEntry)
    (h : validPid p = true) :
    getActiveProject ⟨some p, ps, es⟩ = some p := by
  obtain ⟨hall, hne⟩ := validPid_chars p h
  simp [getActiveProject, trimL_eq_self p hall, hne]

/-! ## Claim C2 -/

theorem stFalseLit_ne_nil : stFalseLit ≠ [] := by decide

theorem stTrueLit_ne_nil : stTrueLit ≠ [] := by decide

/-- Claim C2: for an existing project with a well-formed README (its
stashed: flag occurs exactly once, with value false or true), cmd_switch on
the project followed by cmd_stash succeeds, leaves the active pointer
reading as none, and leaves the project's stashed flag exactly at
stashed: true; and cmd_stash with no active project fails with
NoActiveProject and leaves the state unchanged. -/
theorem C2_stash_switch_inverse
    (st : GtdState) (p : List Char) (proj : Project) (pre post : List Char)
    (hvp : validPid p = true)
    (hfind : findProject st.projects p = some proj)
    (hdoc : proj.readme = some (pre ++ stFalseLit ++ post) ∨
      proj.readme = some (pre ++ stTrueLit ++ post))
    (hTinF : occursIn stTrueLit (pre ++ stFalseLit ++ post) = false)
    (hpreF : ∀ n, n < pre.length →
      isPrefixList stFalseLit (List.drop n (pre ++ stFalseLit ++ post)) = false)
    (hpostF : occursIn stFalseLit post = false)
    (hpreT : ∀ n, n < pre.length →
      isPrefixList stTrueLit (List.drop n (pre ++ stTrueLit ++ post)) = false)
    (hpostT : occursIn stTrueLit post = false) :
    (cmdStash (cmdSwitch [p] st).2).1 = CmdResult.ok ∧
    getActiveProject (cmdStash (cmdSwitch [p] st).2).2 = none ∧
    readmeOf (cmdStash (cmdSwitch [p] st).2).2 p = some (pre ++ stTrueLit ++ post) ∧
    (∀ st0 : GtdState, getActiveProject st0 = none →
      cmdStash st0 = (CmdResult.err GtdError.noActiveProject, st0)) := by
  set fSw : Project → Project :=
    fun q => ⟨q.folder, q.readme.map (replaceAll stTrueLit stFalseLit), q.tasks⟩ with hfSw
  set fSt : Project → Project :=
    fun q => ⟨q.folder, q.readme.map (replaceAll stFalseLit stTrueLit), q.tasks⟩ with hfSt
  have hfolder1 : ∀ q : Project, (fSw q).folder = q.folder := fun q => rfl
  have hfolder2 : ∀ q : Project, (fSt q).folder = q.folder := fun q => rfl
  have hsw : cmdSwitch [p] st =
      (CmdResult.ok, ⟨some p, updateProject st.projects p fSw, st.stash⟩) := by
    simp [cmdSwitch, hvp, hfind]
  have hact1 : getActiveProject ⟨some p, updateProject st.projects p fSw, st.stash⟩ = some p :=
    getActive_some p _ _ hvp
  have hfind1 : findProject (updateProject st.projects p fSw) p = some (fSw proj) := by
    rw [findProject_updateProject st.projects p fSw hfolder1, hfind]
    rfl
  have hstash : cmdStash ⟨some p, updateProject st.projects p fSw, st.stash⟩ =
      (CmdResult.ok, ⟨some [],
        updateProject (updateProject st.projects p fSw) p fSt,
        upsertStash st.stash (p ++ dotMd) (stashEntryContent (fSw proj).folder p)⟩) := by
    simp [cmdStash, hact1, hfind1]
  have hfind2 : findProject (updateProject (updateProject st.projects p fSw) p fSt) p
      = some (fSt (fSw proj)) := by
    rw [findProject_updateProject _ _ _ hfolder2, hfind1]
    rfl
  have hgSw : (fSw proj).readme
      = Option.map (replaceAll stTrueLit stFalseLit) proj.readme := rfl
  have hgSt : (fSt (fSw proj)).readme
      = Option.map (replaceAll stFalseLit stTrueLit) ((fSw proj).readme) := rfl
  have hreadme2 : (fSt (fSw proj)).readme = some (pre ++ stTrueLit ++ post) := by
    rcases hdoc with hdoc | hdoc
    · have h1 : (fSw proj).readme = some (pre ++ stFalseLit ++ post) := by
        rw [hgSw, hdoc, Option.map_some']
        rw [replaceAll_no_occur _ _ _ hTinF]
      rw [hgSt, h1, Option.map_some']
      rw [replaceAll_unique _ _ _ _ stFalseLit_ne_nil hpreF hpostF]
    · have h1 : (fSw proj).readme = some (pre ++ stFalseLit ++ post) := by
        rw [hgSw, hdoc, Option.map_some']
        rw [replaceAll_unique _ _ _ _ stTrueLit_ne_nil hpreT hpostT]
      rw [hgSt, h1, Option.map_some']
      rw [replaceAll_unique _ _ _ _ stFalseLit_ne_nil hpreF hpostF]
  refine ⟨?_, ?_, ?_, ?_⟩
  · rw [hsw]
    show (cmdStash ⟨some p, updateProject st.projects p fSw, st.stash⟩).1 = CmdResult.ok
    rw [hstash]
  · rw [hsw]
    show getActiveProject (cmdStash ⟨some p, updateProject st.projects p fSw, st.stash⟩).2 = none
    rw [hstash]
    rfl
  · rw [hsw]
    show readmeOf (cmdStash ⟨some p, updateProject st.projects p fSw, st.stash⟩).2 p
      = some (pre ++ stTrueLit ++ post)
    rw [hstash]
    show readmeOf ⟨some [],
      updateProject (updateProject st.projects p fSw) p fSt,
      upsertStash st.stash (p ++ dotMd) (stashEntryContent (fSw proj).folder p)⟩ p
      = some (pre ++ stTrueLit ++ post)
    simp only [readmeOf, hfind2]
    exact hreadme2
  · intro st0 h0
    simp [cmdStash, h0]

def c2pre : List Char := "---\nid: P001\n".data

def c2post : List Char := "\ntags: [project]\n---\nBody text\n".data

def c2proj : Project := ⟨"P001-alpha".data, some (c2pre ++ stFalseLit ++ c2post), []⟩

def c2st : GtdState := ⟨none, [c2proj], []⟩

theorem C2_witness :
    (cmdStash (cmdSwitch ["P001".data] c2st).2).1 = CmdResult.ok ∧
    getActiveProject (cmdStash (cmdSwitch ["P001".data] c2st).2).2 = none ∧
    readmeOf (cmdStash (cmdSwitch ["P001".data] c2st).2).2 "P001".data
      = some (c2pre ++ stTrueLit ++ c2post) ∧
    (∀ st0 : GtdState, getActiveProject st0 = none →
      cmdStash st0 = (CmdResult.err GtdError.noActiveProject, st0)) :=
  C2_stash_switch_inverse c2st "P001".data c2proj c2pre c2post
    (by decide) (by decide) (Or.inl rfl) (by decide) (by decide) (by decide)
    (by decide) (by decide)

/-! ## Helper lemmas for create_task -/

theorem occursIn_append_right (pat s t : List Char) (h : occursIn pat t = true) :
    occursIn pat (s ++ t) = true := by
  induction s with
  | nil => simpa using h
  | cons c cs ih => simp [occursIn, ih]

theorem occursIn_cons_of (pat : List Char) (c : Char) (t : List Char)
    (h : occursIn pat t = true) : occursIn pat (c :: t) = true := by
  simp [occursIn, h]

theorem occursIn_self_append (pat Y : List Char) (h : pat ≠ []) :
    occursIn pat (pat ++ Y) = true := by
  have := occursIn_middle pat [] Y h
  simpa using this

/-- Finding the project again after two consecutive folder-preserving
rewrites of it. -/
theorem findProject_double_update (ps : List Project) (pid : List Char)
    (f g : Project → Project)
    (hf : ∀ p, (f p).folder = p.folder) (hg : ∀ p, (g p).folder = p.folder)
    (proj : Project) (hfind : findProject ps pid = some proj) :
    findProject (updateProject (updateProject ps pid f) pid g) pid = some (g (f proj)) := by
  rw [findProject_updateProject _ _ g hg, findProject_updateProject _ _ f hf, hfind]
  rfl

theorem findProject_single_update (ps : List Project) (pid : List Char)
    (f : Project → Project) (hf : ∀ p, (f p).folder = p.folder)
    (proj : Project) (hfind : findProject ps pid = some proj) :
    findProject (updateProject ps pid f) pid = some (f proj) := by
  rw [findProject_updateProject _ _ f hf, hfind]
  rfl

/-- The successful run of create_task, fully computed. -/
theorem createTask_success (b : Bool) (today : List Char) (st : GtdState)
    (title pid status : List Char) (proj : Project)
    (hfind : findProject st.projects pid = some proj) :
    createTask ⟨true, true, b, today⟩ title (some pid) st status =
      (CreateResult.ok (getNextId kLit (allNames st)),
       ⟨st.activeFile,
        updateProject
          (updateProject st.projects pid
            (fun q => ⟨q.folder, q.readme,
              (⟨mkTaskRecordName (getNextId kLit (allNames st)) (mkSlug title),
                renderTask (getNextId kLit (allNames st)) pid title status
                  (projNameOf pid proj.folder) today⟩ : TaskRecFile) :: q.tasks⟩))
          pid
          (fun q => ⟨q.folder,
            q.readme.map (insertTaskRef (getNextId kLit (allNames st)) title), q.tasks⟩),
        st.stash⟩) := by
  simp [createTask, hfind]

/-- The run of create_task in which the direct git commit subprocess fails:
the CalledProcessError propagates after the record write. -/
theorem createTask_commit_raises (b : Bool) (today : List Char) (st : GtdState)
    (title pid status : List Char) (proj : Project)
    (hfind : findProject st.projects pid = some proj) :
    createTask ⟨true, false, b, today⟩ title (some pid) st status =
      (CreateResult.raised,
       ⟨st.activeFile,
        updateProject st.projects pid
          (fun q => ⟨q.folder, q.readme,
            (⟨mkTaskRecordName (getNextId kLit (allNames st)) (mkSlug title),
              renderTask (getNextId kLit (allNames st)) pid title status
                (projNameOf pid proj.folder) today⟩ : TaskRecFile) :: q.tasks⟩),
        st.stash⟩) := by
  simp [createTask, hfind]

/-- Looking up the just-written record in a state whose matched project has
it at the head of its task list. -/
theorem taskContent_head (stA : GtdState) (pid : List Char) (proj' : Project)
    (rec : TaskRecFile) (rest : List TaskRecFile)
    (hfind : findProject stA.projects pid = some proj')
    (htasks : proj'.tasks = rec :: rest) :
    taskContent stA pid rec.name = some rec.content := by
  simp [taskContent, hfind, htasks, List.find?]

/-- The record written by a successful create_task, looked up in the final
state. -/
theorem taskContent_after_success (b : Bool) (today : List Char) (st : GtdState)
    (title pid status : List Char) (proj : Project)
    (hfind : findProject st.projects pid = some proj) :
    taskContent (createTask ⟨true, true, b, today⟩ title (some pid) st status).2 pid
        (mkTaskRecordName (getNextId kLit (allNames st)) (mkSlug title))
      = some (renderTask (getNextId kLit (allNames st)) pid title status
          (projNameOf pid proj.folder) today) := by
  rw [createTask_success b today st title pid status proj hfind]
  dsimp only
  refine taskContent_head _ pid
    ⟨proj.folder,
      proj.readme.map (insertTaskRef (getNextId kLit (allNames st)) title),
      (⟨mkTaskRecordName (getNextId kLit (allNames st)) (mkSlug title),
        renderTask (getNextId kLit (allNames st)) pid title status
          (projNameOf pid proj.folder) today⟩ : TaskRecFile) :: proj.tasks⟩
    ⟨mkTaskRecordName (getNextId kLit (allNames st)) (mkSlug title),
      renderTask (getNextId kLit (allNames st)) pid title status
        (projNameOf pid proj.folder) today⟩
    proj.tasks ?_ rfl
  dsimp only
  refine findProject_double_update st.projects pid _ _ ?_ ?_ proj hfind
  · exact fun q => rfl
  · exact fun q => rfl

/-- The record written before the direct git commit raises, looked up in
the state left behind by the raising run. -/
theorem taskContent_after_raised (b : Bool) (today : List Char) (st : GtdState)
    (title pid status : List Char) (proj : Project)
    (hfind : findProject st.projects pid = some proj) :
    taskContent (createTask ⟨true, false, b, today⟩ title (some pid) st status).2 pid
        (mkTaskRecordName (getNextId kLit (allNames st)) (mkSlug title))
      = some (renderTask (getNextId kLit (allNames st)) pid title status
          (projNameOf pid proj.folder) today) := by
  rw [createTask_commit_raises b today st title pid status proj hfind]
  dsimp only
  refine taskContent_head _ pid
    ⟨proj.folder, proj.readme,
      (⟨mkTaskRecordName (getNextId kLit (allNames st)) (mkSlug title),
        renderTask (getNextId kLit (allNames st)) pid title status
          (projNameOf pid proj.folder) today⟩ : TaskRecFile) :: proj.tasks⟩
    ⟨mkTaskRecordName (getNextId kLit (allNames st)) (mkSlug title),
      renderTask (getNextId kLit (allNames st)) pid title status
        (projNameOf pid proj.folder) today⟩
    proj.tasks ?_ rfl
  dsimp only
  refine findProject_single_update st.projects pid _ ?_ proj hfind
  exact fun q => rfl

/-! ## Claim C3 -/

/-- Claim C3 (amended): after the record write succeeds, a failure of the
git-helper commit collaborator is caught inside call_git_helper and is
non-fatal: the run's result and final state do not depend on the helper
outcome at all, the created id is returned and the written record is kept.
However, create_task also invokes git add and git commit directly with
check=True before the helper; when that direct commit fails, create_task
raises instead of returning the id, while the already-written record is
still not rolled back. -/
theorem C3_commit_collaborator (b₁ b₂ : Bool) (today : List Char) (st : GtdState)
    (title pid : List Char) (proj : Project)
    (hfind : findProject st.projects pid = some proj) :
    createTask ⟨true, true, b₁, today⟩ title (some pid) st defaultStatus
      = createTask ⟨true, true, b₂, today⟩ title (some pid) st defaultStatus ∧
    (createTask ⟨true, true, b₁, today⟩ title (some pid) st defaultStatus).1
      = CreateResult.ok (getNextId kLit (allNames st)) ∧
    taskContent (createTask ⟨true, true, b₁, today⟩ title (some pid) st defaultStatus).2 pid
        (mkTaskRecordName (getNextId kLit (allNames st)) (mkSlug title))
      = some (renderTask (getNextId kLit (allNames st)) pid title defaultStatus
          (projNameOf pid proj.folder) today) ∧
    (createTask ⟨true, false, b₁, today⟩ title (some pid) st defaultStatus).1
      = CreateResult.raised ∧
    taskContent (createTask ⟨true, false, b₁, today⟩ title (some pid) st defaultStatus).2 pid
        (mkTaskRecordName (getNextId kLit (allNames st)) (mkSlug title))
      = some (renderTask (getNextId kLit (allNames st)) pid title defaultStatus
          (projNameOf pid proj.folder) today) := by
  refine ⟨?_, ?_, taskContent_after_success b₁ today st title pid defaultStatus proj hfind,
    ?_, taskContent_after_raised b₁ today st title pid defaultStatus proj hfind⟩
  · rw [createTask_success b₁ today st title pid defaultStatus proj hfind,
      createTask_success b₂ today st title pid defaultStatus proj hfind]
  · rw [createTask_success b₁ today st title pid defaultStatus proj hfind]
  · rw [createTask_commit_raises b₁ today st title pid defaultStatus proj hfind]

def c3wproj : Project := ⟨"P001-demo".data, some "## Tasks\n".data, []⟩

def c3wst : GtdState := ⟨none, [c3wproj], []⟩

theorem C3_witness :
    findProject c3wst.projects "P001".data = some c3wproj ∧
    (createTask ⟨true, true, false, "2026-01-01".data⟩ "Alpha".data (some "P001".data) c3wst defaultStatus
      = createTask ⟨true, true, true, "2026-01-01".data⟩ "Alpha".data (some "P001".data) c3wst defaultStatus ∧
    (createTask ⟨true, true, false, "2026-01-01".data⟩ "Alpha".data (some "P001".data) c3wst defaultStatus).1
      = CreateResult.ok (getNextId kLit (allNames c3wst)) ∧
    taskContent (createTask ⟨true, true, false, "2026-01-01".data⟩ "Alpha".data (some "P001".data) c3wst defaultStatus).2 "P001".data
        (mkTaskRecordName (getNextId kLit (allNames c3wst)) (mkSlug "Alpha".data))
      = some (renderTask (getNextId kLit (allNames c3wst)) "P001".data "Alpha".data defaultStatus
          (projNameOf "P001".data c3wproj.folder) "2026-01-01".data) ∧
    (createTask ⟨true, false, false, "2026-01-01".data⟩ "Alpha".data (some "P001".data) c3wst defaultStatus).1
      = CreateResult.raised ∧
    taskContent (createTask ⟨true, false, false, "2026-01-01".data⟩ "Alpha".data (some "P001".data) c3wst defaultStatus).2 "P001".data
        (mkTaskRecordName (getNextId kLit (allNames c3wst)) (mkSlug "Alpha".data))
      = some (renderTask (getNextId kLit (allNames c3wst)) "P001".data "Alpha".data defaultStatus
          (projNameOf "P001".data c3wproj.folder) "2026-01-01".data)) :=
  ⟨by decide,
   C3_commit_collaborator false true "2026-01-01".data c3wst "Alpha".data "P001".data c3wproj
     (by decide)⟩

/-- Counterexample to claim C3 as stated: with the record write already
succeeded, a failing commit collaborator (the direct git commit subprocess
run with check=True) makes create_task raise instead of returning the
created id, while the record is left on disk. -/
theorem C3_counterexample :
    (createTask ⟨true, false, true, "2026-01-01".data⟩ "Write spec".data
        (some "P001".data) c3wst defaultStatus).1 = CreateResult.raised ∧
    taskContent (createTask ⟨true, false, true, "2026-01-01".data⟩ "Write spec".data
        (some "P001".data) c3wst defaultStatus).2 "P001".data "K001-write-spec.md".data
      ≠ none := by decide

/-! ## Claim C5 -/

/-- Claim C5 (amended): a create_task call that does not supply an explicit
status writes the record with the default status next (not inbox): the
stored record is the template rendered with status = "next". -/
theorem C5_default_status (b : Bool) (today : List Char) (st : GtdState)
    (title pid : List Char) (proj : Project)
    (hfind : findProject st.projects pid = some proj) :
    taskContent (createTask ⟨true, true, b, today⟩ title (some pid) st defaultStatus).2 pid
        (mkTaskRecordName (getNextId kLit (allNames st)) (mkSlug title))
      = some (renderTask (getNextId kLit (allNames st)) pid title defaultStatus
          (projNameOf pid proj.folder) today) ∧
    defaultStatus = "next".data ∧
    occursIn "status: next".data
      (renderTask (getNextId kLit (allNames st)) pid title defaultStatus
        (projNameOf pid proj.folder) today) = true := by
  refine ⟨taskContent_after_success b today st title pid defaultStatus proj hfind, rfl, ?_⟩
  simp only [renderTask, List.append_assoc]
  apply occursIn_append_right
  apply occursIn_append_right
  apply occursIn_append_right
  apply occursIn_append_right
  apply occursIn_append_right
  apply occursIn_append_right
  have key : ∀ Y : List Char,
      "\nstatus: ".data ++ (defaultStatus ++ Y) = '\n' :: ("status: next".data ++ Y) :=
    fun Y => rfl
  rw [key]
  exact occursIn_cons_of _ _ _ (occursIn_self_append _ _ (by decide))

theorem C5_witness :
    findProject c3wst.projects "P001".data = some c3wproj ∧
    (taskContent (createTask ⟨true, true, true, "2026-01-01".data⟩ "Beta".data
          (some "P001".data) c3wst defaultStatus).2 "P001".data
        (mkTaskRecordName (getNextId kLit (allNames c3wst)) (mkSlug "Beta".data))
      = some (renderTask (getNextId kLit (allNames c3wst)) "P001".data "Beta".data defaultStatus
          (projNameOf "P001".data c3wproj.folder) "2026-01-01".data) ∧
    defaultStatus = "next".data ∧
    occursIn "status: next".data
      (renderTask (getNextId kLit (allNames c3wst)) "P001".data "Beta".data defaultStatus
        (projNameOf "P001".data c3wproj.folder) "2026-01-01".data) = true) :=
  ⟨by decide,
   C5_default_status true "2026-01-01".data c3wst "Beta".data "P001".data c3wproj (by decide)⟩

def c5proj : Project := ⟨"P001-demo".data, some "# P001 demo\n\n## Tasks\n\n## Notes\n".data, []⟩

def c5st : GtdState := ⟨some "P001".data, [c5proj], []⟩

/-- Counterexample to claim C5 as stated: the first task created against
P001 with no explicit status does get id K001, but its record reads
status: next, not status: inbox. -/
theorem C5_counterexample :
    (createTask ⟨true, true, true, "2026-01-01".data⟩ "Write spec".data none c5st defaultStatus).1
      = CreateResult.ok "K001".data ∧
    occursIn "status: next".data
      ((taskContent (createTask ⟨true, true, true, "2026-01-01".data⟩ "Write spec".data none
          c5st defaultStatus).2 "P001".data "K001-write-spec.md".data).getD []) = true ∧
    occursIn "status: inbox".data
      ((taskContent (createTask ⟨true, true, true, "2026-01-01".data⟩ "Write spec".data none
          c5st defaultStatus).2 "P001".data "K001-write-spec.md".data).getD []) = false := by
  set_option maxRecDepth 20000 in decide

/-! ## Claim C6 -/

/-- Claim C6 (amended): a successful create_task writes exactly one record
file under the target project (the task list grows by exactly that one
file) and rewrites every occurrence of the Tasks heading to the heading
followed by the new reference line; when the heading occurs exactly once,
exactly one reference line is inserted and the rest of the document is
unchanged. The insertion is unconditional, not matched by id, so it is not
idempotent. -/
theorem C6_record_and_reference (b : Bool) (today : List Char) (st : GtdState)
    (title pid : List Char) (proj : Project) (pre post : List Char)
    (hfind : findProject st.projects pid = some proj)
    (hreadme : proj.readme = some (pre ++ tasksHeadingLit ++ post))
    (hpre : ∀ n, n < pre.length →
      isPrefixList tasksHeadingLit (List.drop n (pre ++ tasksHeadingLit ++ post)) = false)
    (hpost : occursIn tasksHeadingLit post = false) :
    findProject (createTask ⟨true, true, b, today⟩ title (some pid) st defaultStatus).2.projects pid
      = some ⟨proj.folder,
          some (pre ++ tasksHeadingLit ++
            (refLine (getNextId kLit (allNames st)) title ++ post)),
          (⟨mkTaskRecordName (getNextId kLit (allNames st)) (mkSlug title),
            renderTask (getNextId kLit (allNames st)) pid title defaultStatus
              (projNameOf pid proj.folder) today⟩ : TaskRecFile) :: proj.tasks⟩ := by
  rw [createTask_success b today st title pid defaultStatus proj hfind]
  dsimp only
  refine Eq.trans (findProject_double_update st.projects pid _ _ ?_ ?_ proj hfind) ?_
  · exact fun q => rfl
  · exact fun q => rfl
  have hoc : occursIn tasksHeadingLit (pre ++ tasksHeadingLit ++ post) = true :=
    occursIn_middle _ _ _ (by decide)
  have hrepl := replaceAll_unique tasksHeadingLit
    (tasksHeadingLit ++ refLine (getNextId kLit (allNames st)) title) pre post
    (by decide) hpre hpost
  dsimp only
  rw [hreadme]
  simp only [insertTaskRef, Option.map_some', Option.some.injEq, Project.mk.injEq,
    List.append_assoc, true_and, and_true]
  have hoc2 : occursIn tasksHeadingLit (pre ++ (tasksHeadingLit ++ post)) = true := by
    rw [← List.append_assoc]
    exact hoc
  have hrepl2 : replaceAll tasksHeadingLit
      (tasksHeadingLit ++ refLine (getNextId kLit (allNames st)) title)
      (pre ++ (tasksHeadingLit ++ post))
      = pre ++ (tasksHeadingLit ++ (refLine (getNextId kLit (allNames st)) title ++ post)) := by
    rw [← List.append_assoc, hrepl]
    simp [List.append_assoc]
  rw [if_pos hoc2, hrepl2]

def c6wproj : Project :=
  ⟨"P001-blog".data, some ("# B\n\n".data ++ tasksHeadingLit ++ "\nEnd\n".data), []⟩

def c6wst : GtdState := ⟨none, [c6wproj], []⟩

theorem C6_witness :
    findProject c6wst.projects "P001".data = some c6wproj ∧
    findProject (createTask ⟨true, true, true, "2026-01-01".data⟩ "Post".data
        (some "P001".data) c6wst defaultStatus).2.projects "P001".data
      = some ⟨c6wproj.folder,
          some ("# B\n\n".data ++ tasksHeadingLit ++
            (refLine (getNextId kLit (allNames c6wst)) "Post".data ++ "\nEnd\n".data)),
          (⟨mkTaskRecordName (getNextId kLit (allNames c6wst)) (mkSlug "Post".data),
            renderTask (getNextId kLit (allNames c6wst)) "P001".data "Post".data defaultStatus
              (projNameOf "P001".data c6wproj.folder) "2026-01-01".data⟩ : TaskRecFile)
            :: c6wproj.tasks⟩ :=
  ⟨by decide,
   C6_record_and_reference true "2026-01-01".data c6wst "Post".data "P001".data c6wproj
     "# B\n\n".data "\nEnd\n".data (by decide) rfl (by decide) (by decide)⟩

def c6readme0 : List Char := "# Alpha\n\n## Tasks\n\n## Notes\n".data

/-- Counterexample to claim C6 as stated: re-running the reference
insertion for a task id whose reference line is already present duplicates
the line, because entries are not matched by id. -/
theorem C6_counterexample :
    countOcc (refLine "K001".data "Alpha task".data)
        (insertTaskRef "K001".data "Alpha task".data c6readme0) = 1 ∧
    countOcc (refLine "K001".data "Alpha task".data)
        (insertTaskRef "K001".data "Alpha task".data
          (insertTaskRef "K001".data "Alpha task".data c6readme0)) = 2 := by
  decide

/-! ## Health alert engine (gtd_health_alerts.py)

Task record files and stash entry files are modelled with their name,
content, and mtime in whole seconds since the epoch; datetime.now() is the
evaluation instant now. timedelta.days is floor division of the difference
by 86400, which for the positive divisor is Int division. Alerts are
modelled structurally; the constructors correspond one-to-one to the four
alert string formats of the source. -/

structure TaskF where
  name : List Char
  content : List Char
  mtime : Int
deriving DecidableEq

structure StashF where
  name : List Char
  content : List Char
  mtime : Int
deriving DecidableEq

inductive Alert where
  | waitingStale (file id title : List Char) (days : Int)
  | nextStale (file id title : List Char) (days : Int)
  | stashStale (link id : List Char) (days : Int)
  | inboxOverflow (count : Nat)
deriving DecidableEq

/-- re.search(id: (K\d+), content): the first occurrence of the literal
id: K that is followed by at least one digit; the captured group is K with
the digit run. -/
def findTaskId : List Char → Option (List Char)
  | [] => none
  | c :: cs =>
    if isPrefixList "id: K".data (c :: cs) then
      let rest := (c :: cs).drop 5
      let ds := rest.takeWhile isDigitC
      if ds.isEmpty then findTaskId cs else some ('K' :: ds)
    else findTaskId cs

/-- re.search(title: ([^\n]+), content). -/
def findTitle : List Char → Option (List Char)
  | [] => none
  | c :: cs =>
    if isPrefixList "title: ".data (c :: cs) then
      let rest := (c :: cs).drop 7
      let tl := rest.takeWhile (fun ch => ch != '\n')
      if tl.isEmpty then findTitle cs else some tl
    else findTitle cs

def notPipeBracket (ch : Char) : Bool := !(ch == '|' || ch == ']')

/-- re.search(double-bracket link pattern, content): the first wiki link,
returning its target and label groups. -/
def findWikiLink : List Char → Option (List Char × List Char)
  | [] => none
  | c :: cs =>
    if isPrefixList "[[".data (c :: cs) then
      let r0 := (c :: cs).drop 2
      let a := r0.takeWhile notPipeBracket
      let r1 := r0.drop a.length
      if !a.isEmpty && isPrefixList ['|'] r1 then
        let r2 := r1.drop 1
        let b := r2.takeWhile notPipeBracket
        let r3 := r2.drop b.length
        if !b.isEmpty && isPrefixList "]]".data r3 then some (a, b)
        else findWikiLink cs
      else findWikiLink cs
    else findWikiLink cs

/-- The body of the check_aging_tasks loop for one task file: the waiting
check (strict comparison mtime < now - 3 days, in seconds) followed by the
next check (7 days); the days field is the floor of the age in days. -/
def agingFor (now : Int) (t : TaskF) : List Alert :=
  (if occursIn "status: waiting".data t.content = true ∧ t.mtime < now - 3 * 86400 then
    match findTaskId t.content, findTitle t.content with
    | some tid, some ttl =>
      [Alert.waitingStale t.name tid ttl ((now - t.mtime) / 86400)]
    | _, _ => []
  else []) ++
  (if occursIn "status: next".data t.content = true ∧ t.mtime < now - 7 * 86400 then
    match findTaskId t.content, findTitle t.content with
    | some tid, some ttl =>
      [Alert.nextStale t.name tid ttl ((now - t.mtime) / 86400)]
    | _, _ => []
  else [])

/-- check_aging_tasks: one pass over the task files, appending the waiting
and next alerts of each file in file order. -/
def checkAgingTasks (now : Int) (tasks : List TaskF) : List Alert :=
  tasks.flatMap (agingFor now)

/-- Glob pattern P*.md. -/
def globPmd : List Char → Bool
  | 'P' :: rest => endsWithMd rest
  | _ => false

/-- check_stashed_projects: none models the stash folder not existing. -/
def checkStashedProjects (now : Int) : Option (List StashF) → List Alert
  | none => []
  | some files =>
    (files.filter (fun f => globPmd f.name)).flatMap (fun f =>
      if f.mtime < now - 7 * 86400 then
        match findWikiLink f.content with
        | some (link, pid) => [Alert.stashStale link pid ((now - f.mtime) / 86400)]
        | none => []
      else [])

/-- check_inbox_overflow. -/
def checkInboxOverflow (tasks : List TaskF) : List Alert :=
  let n := tasks.countP (fun t => occursIn "status: inbox".data t.content)
  if n > 10 then [Alert.inboxOverflow n] else []

/-- generate_alerts: aging, then stashed, then inbox. -/
def generateAlerts (now : Int) (tasks : List TaskF) (stash : Option (List StashF)) : List Alert :=
  checkAgingTasks now tasks ++ checkStashedProjects now stash ++ checkInboxOverflow tasks

def isAgingAlert : Alert → Bool
  | Alert.waitingStale _ _ _ _ => true
  | Alert.nextStale _ _ _ _ => true
  | _ => false

def isStashAlert : Alert → Bool
  | Alert.stashStale _ _ _ => true
  | _ => false

def isInboxAlert : Alert → Bool
  | Alert.inboxOverflow _ => true
  | _ => false

/-! ## Claim C4 -/

/-- Claim C4 (amended): the waiting-stale comparison is strict on exact
timestamps, not on whole-day counts: a waiting task alerts exactly when
now - mtime exceeds 3 days in seconds. At most 3 days (including the
boundary of exactly 3 days) there is no alert; beyond it there is exactly
one waiting-stale alert carrying ageDays = floor((now - mtime)/1 day); in
particular ageDays = 4 always yields exactly one alert, but an ageDays = 3
task with any positive remainder already alerts. -/
theorem C4_waiting_age_boundary (now : Int) (t : TaskF) (tid ttl : List Char)
    (hw : occursIn "status: waiting".data t.content = true)
    (hn : occursIn "status: next".data t.content = false)
    (hid : findTaskId t.content = some tid)
    (httl : findTitle t.content = some ttl) :
    (now - t.mtime ≤ 3 * 86400 → checkAgingTasks now [t] = []) ∧
    (3 * 86400 < now - t.mtime →
      checkAgingTasks now [t]
        = [Alert.waitingStale t.name tid ttl ((now - t.mtime) / 86400)]) ∧
    ((now - t.mtime) / 86400 = 4 →
      checkAgingTasks now [t] = [Alert.waitingStale t.name tid ttl 4]) := by
  have hflat : checkAgingTasks now [t] = agingFor now t := by
    simp [checkAgingTasks]
  have hno2 : ¬(occursIn "status: next".data t.content = true ∧ t.mtime < now - 7 * 86400) := by
    simp [hn]
  have hval : ∀ _ : t.mtime < now - 3 * 86400,
      agingFor now t = [Alert.waitingStale t.name tid ttl ((now - t.mtime) / 86400)] := by
    intro hcmp
    unfold agingFor
    rw [if_pos ⟨hw, hcmp⟩, if_neg hno2, hid, httl]
    rfl
  have hnone : ∀ _ : ¬(t.mtime < now - 3 * 86400), agingFor now t = [] := by
    intro hcmp
    unfold agingFor
    rw [if_neg (fun h => hcmp h.2), if_neg hno2]
    rfl
  refine ⟨?_, ?_, ?_⟩
  · intro hle
    rw [hflat, hnone (by omega)]
  · intro hlt
    rw [hflat, hval (by omega)]
  · intro hfd
    have hlt : 3 * 86400 < now - t.mtime := by omega
    rw [hflat, hval (by omega), hfd]

def c4task : TaskF :=
  ⟨"K001-wait.md".data, "---\nid: K001\ntitle: Wait\nstatus: waiting\n---\n".data, 0⟩

theorem C4_witness :
    occursIn "status: waiting".data c4task.content = true ∧
    (((432000 : Int) - c4task.mtime ≤ 3 * 86400 → checkAgingTasks 432000 [c4task] = []) ∧
    (3 * 86400 < (432000 : Int) - c4task.mtime →
      checkAgingTasks 432000 [c4task]
        = [Alert.waitingStale c4task.name "K001".data "Wait".data
            (((432000 : Int) - c4task.mtime) / 86400)]) ∧
    (((432000 : Int) - c4task.mtime) / 86400 = 4 →
      checkAgingTasks 432000 [c4task]
        = [Alert.waitingStale c4task.name "K001".data "Wait".data 4])) :=
  ⟨by decide,
   C4_waiting_age_boundary 432000 c4task "K001".data "Wait".data
     (by decide) (by decide) (by decide) (by decide)⟩

/-- Counterexample to claim C4 as stated: a waiting task aged 3 days plus
one second has ageDays = 3 and nevertheless produces a waiting-stale
alert, so the boundary is not on whole-day counts. -/
theorem C4_counterexample :
    ((259201 : Int) - c4task.mtime) / 86400 = 3 ∧
    checkAgingTasks 259201 [c4task]
      = [Alert.waitingStale "K001-wait.md".data "K001".data "Wait".data 3] := by
  decide

/-! ## Claim C7 -/

/-- Claim C7 (amended): get_next_id has no UnknownPrefix failure: for every
prefix other than K (P included) it scans the project pattern and returns
the prefix concatenated with the zero-padded successor of the maximum
collected project number. -/
theorem C7_unknown_prefix (prefixStr : List Char) (names : List (List Char))
    (h : prefixStr ≠ kLit) :
    getNextId prefixStr names = prefixStr ++ pad3chars (nextFrom (pIds names)) := by
  simp [getNextId, h]

theorem C7_witness :
    getNextId "X".data [] = "X".data ++ pad3chars (nextFrom (pIds [])) :=
  C7_unknown_prefix "X".data [] (by decide)

/-- Counterexample to claim C7 as stated: for the unregistered prefix X the
allocator returns the identifier X001 instead of failing with
UnknownPrefix (the function has no error path at all). -/
theorem C7_counterexample : getNextId "X".data [] = "X001".data := by decide

/-! ## Claim C8 -/

/-- Claim C8 (amended): generate_alerts is the concatenation of the three
checks in the fixed order aging tasks, stashed projects, inbox overflow,
and each part only emits its own alert kinds; but within the aging part the
waiting-stale and next-stale alerts of rules 1 and 2 are emitted per file
in file order, not as two separate groups. -/
theorem C8_rule_order (now : Int) (tasks : List TaskF) (stash : Option (List StashF)) :
    generateAlerts now tasks stash
      = checkAgingTasks now tasks ++ checkStashedProjects now stash ++ checkInboxOverflow tasks ∧
    (∀ a ∈ checkAgingTasks now tasks, isAgingAlert a = true) ∧
    (∀ a ∈ checkStashedProjects now stash, isStashAlert a = true) ∧
    (∀ a ∈ checkInboxOverflow tasks, isInboxAlert a = true) := by
  refine ⟨rfl, ?_, ?_, ?_⟩
  · intro a ha
    rcases List.mem_flatMap.mp ha with ⟨t, -, hmem⟩
    unfold agingFor at hmem
    rcases List.mem_append.mp hmem with h | h <;>
      split at h <;>
        first
          | exact absurd h (List.not_mem_nil a)
          | (split at h <;>
              first
                | (rw [List.mem_singleton] at h; subst h; rfl)
                | exact absurd h (List.not_mem_nil a))
  · intro a ha
    cases stash with
    | none => exact absurd ha (List.not_mem_nil a)
    | some files =>
      simp only [checkStashedProjects] at ha
      rcases List.mem_flatMap.mp ha with ⟨f, -, hmem⟩
      split at hmem <;>
        first
          | exact absurd hmem (List.not_mem_nil a)
          | (split at hmem <;>
              first
                | (rw [List.mem_singleton] at hmem; subst hmem; rfl)
                | exact absurd hmem (List.not_mem_nil a))
  · intro a ha
    unfold checkInboxOverflow at ha
    dsimp only at ha
    split at ha <;>
      first
        | (rw [List.mem_singleton] at ha; subst ha; rfl)
        | exact absurd ha (List.not_mem_nil a)

theorem C8_witness :
    generateAlerts 0 [] none
      = checkAgingTasks 0 [] ++ checkStashedProjects 0 none ++ checkInboxOverflow [] :=
  (C8_rule_order 0 [] none).1

def c8t1 : TaskF :=
  ⟨"K001-a.md".data, "---\nid: K001\ntitle: Alpha\nstatus: next\n---\n".data, 0⟩

def c8t2 : TaskF :=
  ⟨"K002-b.md".data, "---\nid: K002\ntitle: Beta\nstatus: waiting\n---\n".data, 0⟩

/-- Counterexample to claim C8 as stated: with a stale next task listed
before a stale waiting task, the aging pass emits the next-stale alert
before the waiting-stale alert, so the output does not consist of all
waiting-stale alerts followed by all next-stale alerts. -/
theorem C8_counterexample :
    generateAlerts 864000 [c8t1, c8t2] none
      = [Alert.nextStale "K001-a.md".data "K001".data "Alpha".data 10,
         Alert.waitingStale "K002-b.md".data "K002".data "Beta".data 10] := by
  decide

/-! ## Aside classifier (heuristic_asides.py)

The trigger phrases and immediate-action cues are regexes of the shape
word-boundary, literal phrase, word-boundary, searched case-insensitively;
they are embedded as a boundary-checked case-insensitive substring search.
The two ignore patterns additionally contain a lazy gap (.*?, any
non-newline characters) and an alternation, embedded as an existential
scan over start positions. -/

def lowerL (s : List Char) : List Char := s.map lowerChar

/-- Case-insensitive literal match at position i (patterns are written in
lower case). -/
def litAtCI (lit s : List Char) (i : Nat) : Bool :=
  isPrefixList lit ((lowerL s).drop i)

/-- Case-sensitive literal match at position i. -/
def litAt (lit s : List Char) (i : Nat) : Bool :=
  isPrefixList lit (s.drop i)

/-- Is the character at position i a word character (out of range counts
as no)? -/
def wAt (s : List Char) (i : Nat) : Bool :=
  match s.drop i with
  | c :: _ => isWordChar c
  | _ => false

/-- The regex word boundary \b at position i: exactly one of the adjacent
positions holds a word character. -/
def boundaryAt (s : List Char) : Nat → Bool
  | 0 => wAt s 0
  | j + 1 => wAt s j != wAt s (j + 1)

/-- A match of the pattern \b lit \b at position i, case-insensitively. -/
def matchWordCIAt (w s : List Char) (i : Nat) : Bool :=
  litAtCI w s i && boundaryAt s i && boundaryAt s (i + w.length)

/-- re.search of \b lit \b with re.IGNORECASE. -/
def searchWordCI (w s : List Char) : Bool :=
  (List.range (s.length + 1)).any (fun i => matchWordCIAt w s i)

/-- All characters of positions [a, b) differ from newline (the regex .
with DOTALL off). -/
def allNonNl (s : List Char) (a b : Nat) : Bool :=
  ((s.drop a).take (b - a)).all (fun ch => ch != '\n')

/-- First ignore pattern: word also, a non-newline gap, then the literal
but, however or although (no boundaries on the alternation). -/
def searchIgnore1 (s : List Char) : Bool :=
  (List.range (s.length + 1)).any (fun i =>
    matchWordCIAt "also".data s i &&
    (List.range (s.length + 1)).any (fun j =>
      decide (i + 4 ≤ j) && allNonNl s (i + 4) j &&
      (litAtCI "but".data s j || litAtCI "however".data s j ||
        litAtCI "although".data s j)))

/-- Second ignore pattern: boundary, the literal speaking of, a
non-newline gap, then we were with a closing boundary. -/
def searchIgnore2 (s : List Char) : Bool :=
  (List.range (s.length + 1)).any (fun i =>
    litAtCI "speaking of".data s i && boundaryAt s i &&
    (List.range (s.length + 1)).any (fun j =>
      decide (i + 11 ≤ j) && allNonNl s (i + 11) j &&
      litAtCI "we were".data s j && boundaryAt s (j + 7)))

/-- any() over IGNORE_PATTERNS. -/
def anyIgnore (s : List Char) : Bool := searchIgnore1 s || searchIgnore2 s

/-- TRIGGER_PHRASES in source order (the duplicate entry included), each a
boundary-delimited phrase. -/
def triggerList : List (List Char) :=
  ["also".data, "oh".data, "by the way".data, "by the way".data,
   "reminds me of".data, "speaking of".data, "should look into".data,
   "could explore".data, "might want to".data, "we should".data,
   "on a side note".data, "tangentially".data, "on a related note".data,
   "while we".data ++ aposC :: "re at it".data,
   "while i".data ++ aposC :: "m thinking".data,
   "idea:".data, "thought:".data]

/-- re.search of boundary, P, digits, boundary (case-sensitive): a match
exists exactly when some P with a following digit run has a boundary on
both sides of the maximal run. -/
def searchPnum (s : List Char) : Bool :=
  (List.range (s.length + 1)).any (fun i =>
    boundaryAt s i && litAt ['P'] s i &&
    (let run := (s.drop (i + 1)).takeWhile isDigitC
     !run.isEmpty && boundaryAt s (i + 1 + run.length)))

/-- The immediate-action cues of infer_aside_type. -/
def immediateList : List (List Char) :=
  ["need to".data, "must".data, "have to".data, "start".data, "begin".data]

/-- infer_aside_type. -/
def inferAsideType (s : List Char) : List Char :=
  if searchPnum s then "defer (project)".data
  else if immediateList.any (fun w => searchWordCI w s) then "defer (project)".data
  else "later (standalone)".data

def isPunctC (c : Char) : Bool := c == '.' || c == '!' || c == '?'

/-- re.split on runs of sentence-terminal punctuation (fuel = text
length). -/
def reSplitPunct : Nat → List Char → List Char → List (List Char)
  | _, [], acc => [acc.reverse]
  | 0, cs, acc => [acc.reverse ++ cs]
  | fuel + 1, c :: cs, acc =>
    if isPunctC c then acc.reverse :: reSplitPunct fuel (cs.dropWhile isPunctC) []
    else reSplitPunct fuel cs (c :: acc)

def splitSentences (text : List Char) : List (List Char) :=
  reSplitPunct text.length text []

/-- The per-sentence body of the detect_asides loop: strip, skip empties,
test the ignore patterns, then take the first matching trigger. -/
def processSentence (s : List Char) : Option (List Char × List Char) :=
  let s1 := trimL s
  if s1.isEmpty then none
  else if anyIgnore s1 then none
  else
    match triggerList.find? (fun tr => searchWordCI tr s1) with
    | some _ => some (s1, inferAsideType s1)
    | none => none

/-- detect_asides. -/
def detectAsides (text : List Char) : List (List Char × List Char) :=
  (splitSentences text).filterMap processSentence

/-! ## Claim C9 -/

/-- Claim C9: the ignore patterns are tested before any trigger matching
and an ignore match suppresses the sentence entirely, so every produced
aside comes from a sentence on which no ignore pattern matched; and the
input sentence that matches both an ignore pattern and a trigger produces
zero asides. -/
theorem C9_ignore_precedence (text : List Char) (a : List Char × List Char)
    (h : a ∈ detectAsides text) :
    anyIgnore a.1 = false ∧
    detectAsides "Also, but we already covered that.".data = [] := by
  constructor
  · rcases List.mem_filterMap.mp h with ⟨s, -, hp⟩
    unfold processSentence at hp
    dsimp only at hp
    by_cases h1 : (trimL s).isEmpty
    · rw [if_pos h1] at hp
      exact absurd hp (by simp)
    · rw [if_neg h1] at hp
      by_cases h2 : anyIgnore (trimL s) = true
      · rw [if_pos h2] at hp
        exact absurd hp (by simp)
      · rw [if_neg h2] at hp
        rcases hfind : triggerList.find? (fun tr => searchWordCI tr (trimL s)) with - | tr
        · rw [hfind] at hp
          exact absurd hp (by simp)
        · rw [hfind] at hp
          have ha := Option.some.inj hp
          rw [← ha]
          exact Bool.eq_false_iff.mpr h2
  · decide

theorem C9_witness :
    anyIgnore (("We should refactor".data, "later (standalone)".data) : List Char × List Char).1
      = false ∧
    detectAsides "Also, but we already covered that.".data = [] :=
  C9_ignore_precedence "We should refactor.".data
    ("We should refactor".data, "later (standalone)".data) (by decide)

/-! ## Claim C10 -/

/-- Claim C10 (amended): cmd_stash (resp. cmd_switch) rewrites every
occurrence of the literal stashed: false (resp. stashed: true) in the
project README; when the literal occurs exactly once, in the frontmatter
stashed: line, only that occurrence is rewritten and the rest of the
document is byte-for-byte unchanged. -/
theorem C10_stashed_line_rewrite
    (st₁ : GtdState) (pid₁ : List Char) (proj₁ : Project) (pre₁ post₁ : List Char)
    (hact : getActiveProject st₁ = some pid₁)
    (hfind₁ : findProject st₁.projects pid₁ = some proj₁)
    (hdoc₁ : proj₁.readme = some (pre₁ ++ stFalseLit ++ post₁))
    (hpre₁ : ∀ n, n < pre₁.length →
      isPrefixList stFalseLit (List.drop n (pre₁ ++ stFalseLit ++ post₁)) = false)
    (hpost₁ : occursIn stFalseLit post₁ = false)
    (st₂ : GtdState) (pid₂ : List Char) (proj₂ : Project) (pre₂ post₂ : List Char)
    (hvp₂ : validPid pid₂ = true)
    (hfind₂ : findProject st₂.projects pid₂ = some proj₂)
    (hdoc₂ : proj₂.readme = some (pre₂ ++ stTrueLit ++ post₂))
    (hpre₂ : ∀ n, n < pre₂.length →
      isPrefixList stTrueLit (List.drop n (pre₂ ++ stTrueLit ++ post₂)) = false)
    (hpost₂ : occursIn stTrueLit post₂ = false) :
    readmeOf (cmdStash st₁).2 pid₁ = some (pre₁ ++ stTrueLit ++ post₁) ∧
    readmeOf (cmdSwitch [pid₂] st₂).2 pid₂ = some (pre₂ ++ stFalseLit ++ post₂) := by
  set fSt : Project → Project :=
    fun q => ⟨q.folder, q.readme.map (replaceAll stFalseLit stTrueLit), q.tasks⟩ with hfSt
  set fSw : Project → Project :=
    fun q => ⟨q.folder, q.readme.map (replaceAll stTrueLit stFalseLit), q.tasks⟩ with hfSw
  constructor
  · have hstash : cmdStash st₁ =
        (CmdResult.ok, ⟨some [],
          updateProject st₁.projects pid₁ fSt,
          upsertStash st₁.stash (pid₁ ++ dotMd) (stashEntryContent proj₁.folder pid₁)⟩) := by
      simp [cmdStash, hact, hfind₁]
    rw [hstash]
    show readmeOf ⟨some [],
      updateProject st₁.projects pid₁ fSt,
      upsertStash st₁.stash (pid₁ ++ dotMd) (stashEntryContent proj₁.folder pid₁)⟩ pid₁
      = some (pre₁ ++ stTrueLit ++ post₁)
    simp only [readmeOf,
      findProject_single_update st₁.projects pid₁ fSt (fun q => rfl) proj₁ hfind₁]
    rw [hdoc₁, Option.map_some',
      replaceAll_unique _ _ _ _ stFalseLit_ne_nil hpre₁ hpost₁]
  · have hsw : cmdSwitch [pid₂] st₂ =
        (CmdResult.ok, ⟨some pid₂, updateProject st₂.projects pid₂ fSw, st₂.stash⟩) := by
      simp [cmdSwitch, hvp₂, hfind₂]
    rw [hsw]
    show readmeOf ⟨some pid₂, updateProject st₂.projects pid₂ fSw, st₂.stash⟩ pid₂
      = some (pre₂ ++ stFalseLit ++ post₂)
    simp only [readmeOf,
      findProject_single_update st₂.projects pid₂ fSw (fun q => rfl) proj₂ hfind₂]
    rw [hdoc₂, Option.map_some',
      replaceAll_unique _ _ _ _ stTrueLit_ne_nil hpre₂ hpost₂]

def c10wprojA : Project :=
  ⟨"P001-a".data, some ("id: P001\n".data ++ stFalseLit ++ "\n".data), []⟩

def c10wstA : GtdState := ⟨some "P001".data, [c10wprojA], []⟩

def c10wprojB : Project :=
  ⟨"P002-b".data, some ("id: P002\n".data ++ stTrueLit ++ "\n".data), []⟩

def c10wstB : GtdState := ⟨none, [c10wprojB], []⟩

theorem C10_witness :
    readmeOf (cmdStash c10wstA).2 "P001".data
      = some ("id: P001\n".data ++ stTrueLit ++ "\n".data) ∧
    readmeOf (cmdSwitch ["P002".data] c10wstB).2 "P002".data
      = some ("id: P002\n".data ++ stFalseLit ++ "\n".data) :=
  C10_stashed_line_rewrite c10wstA "P001".data c10wprojA "id: P001\n".data "\n".data
    (by decide) (by decide) rfl (by decide) (by decide)
    c10wstB "P002".data c10wprojB "id: P002\n".data "\n".data
    (by decide) (by decide) rfl (by decide) (by decide)

def c10doc0 : List Char :=
  "---\nid: P001\nstashed: false\n---\nSet stashed: false to resume\n".data

def c10proj : Project := ⟨"P001-x".data, some c10doc0, []⟩

def c10st : GtdState := ⟨some "P001".data, [c10proj], []⟩

/-- Counterexample to claim C10 as stated: when the README body also
contains the literal stashed: false, cmd_stash rewrites that body text
too, so the document content after the frontmatter stashed: line is not
left byte-for-byte unchanged. -/
theorem C10_counterexample :
    readmeOf (cmdStash c10st).2 "P001".data
      = some "---\nid: P001\nstashed: true\n---\nSet stashed: true to resume\n".data ∧
    List.drop 27 ((readmeOf (cmdStash c10st).2 "P001".data).getD [])
      ≠ List.drop 28 c10doc0 := by
  decide

end GtdSpec
